import Mathlib

/-!
Verification of the clock-arithmetic and formatting core of `tsTS.cpp`
(PCR/PTS modular arithmetic, bitrate arbitration, timestamp rendering).

Machine integers are embedded as `Nat`/`Int`; unsigned 64-bit wraparound is
made explicit with `% UINT64_MOD` where the C++ computes in `uint64_t`.
Constants declared in the header `tsTS.h` (not part of the available
sources) are modelled from the spec.
-/

/-- Modelled from the spec: the extended program-clock frequency, 27 MHz
(declared in the header, not in the available sources). -/
def SYSTEM_CLOCK_FREQ : ℕ := 27000000

/-- Modelled from the spec: the base 90 kHz presentation-clock frequency
(declared in the header, not in the available sources). -/
def SYSTEM_CLOCK_SUBFREQ : ℕ := 90000

/-- Modelled from the spec: the bit length of one transport packet,
188 bytes of 8 bits (declared in the header, not in the available sources). -/
def PKT_SIZE_BITS : ℕ := 188 * 8

/-- Modelled from the spec: the wraparound period of the 33-bit, 90 kHz
presentation clock (declared in the header, not in the available sources). -/
def PTS_DTS_SCALE : ℕ := 2 ^ 33

/-- Modelled from the spec: the largest valid PTS/DTS value,
`PTS_DTS_SCALE - 1`. -/
def MAX_PTS_DTS : ℕ := PTS_DTS_SCALE - 1

/-- Modelled from the spec: the wraparound period of the extended 27 MHz
program clock, a 33-bit base clock times a 300-unit extension. -/
def PCR_SCALE : ℕ := 2 ^ 33 * 300

/-- Modelled from the spec: the largest valid PCR value, `PCR_SCALE - 1`. -/
def MAX_PCR : ℕ := PCR_SCALE - 1

/-- Modelled from the spec: the reserved sentinel for an unknown PCR, a
`uint64_t` value outside the valid domain (the all-ones 64-bit value). -/
def INVALID_PCR : ℕ := 2 ^ 64 - 1

/-- Modelled from the spec: the reserved sentinel for an unknown PTS/DTS, a
`uint64_t` value outside the valid domain (the all-ones 64-bit value). -/
def INVALID_PTS : ℕ := 2 ^ 64 - 1

/-- The modulus of `uint64_t` arithmetic. -/
def UINT64_MOD : ℕ := 2 ^ 64

/-- The least `int64_t` value. -/
def INT64_MIN : ℤ := -(2 ^ 63)

/-- The modulus of `int64_t` arithmetic. -/
def INT64_MOD : ℤ := 2 ^ 64

/-- Reduction of an integer into the `int64_t` range `[-2^63, 2^63)`, the
two's-complement wrap that `int64_t` arithmetic performs on overflow
(formally undefined behavior in C++, modelled as the universal
two's-complement semantics). -/
def wrapInt64 (s : ℤ) : ℤ := (s - INT64_MIN) % INT64_MOD + INT64_MIN

/-- `ts::SelectBitrate` from `tsTS.cpp`. The `BitRate` operand type and the
`BitRateConfidence` enumeration are declared in the header (not in the
available sources); modelled from the spec, a bitrate is a non-negative
quantity whose division rule is floor division, with `0` the undefined
sentinel, and a confidence is the rank of an ordered enumeration of trust
levels. -/
def SelectBitrate (bitrate1 brc1 bitrate2 brc2 : ℕ) : ℕ :=
  if bitrate1 = 0 then bitrate2
  else if bitrate2 = 0 then bitrate1
  else if brc1 = brc2 then (bitrate1 + bitrate2) / 2
  else if brc1 > brc2 then bitrate1
  else bitrate2

/-- `ts::NextPCR` from `tsTS.cpp`. The `PacketCounter` distance and the
`BitRate` divisor are header types modelled from the spec as non-negative
integers with floor division; the local `next_pcr` is a `uint64_t`, so the
sum wraps modulo `2 ^ 64`. -/
def NextPCR (last_pcr distance bitrate : ℕ) : ℕ :=
  if last_pcr = INVALID_PCR ∨ bitrate = 0 then INVALID_PCR
  else
    let next_pcr := (last_pcr + distance * PKT_SIZE_BITS * SYSTEM_CLOCK_FREQ / bitrate) % UINT64_MOD
    if PCR_SCALE ≤ next_pcr then next_pcr - PCR_SCALE else next_pcr

/-- `ts::AddPCR` from `tsTS.cpp`: the sum `int64_t(pcr) + offset` is
computed in `int64_t` (so it wraps two's-complement on overflow), C++ `%`
on it is the truncated remainder `Int.tmod`, and a negative remainder is
adjusted by adding `PCR_SCALE`. -/
def AddPCR (pcr : ℕ) (offset : ℤ) : ℕ :=
  if MAX_PCR < pcr then INVALID_PCR
  else
    let res : ℤ := Int.tmod (wrapInt64 ((pcr : ℤ) + offset)) (PCR_SCALE : ℤ)
    if res < 0 then ((PCR_SCALE : ℤ) + res).toNat else res.toNat

/-- `ts::DiffPCR` from `tsTS.cpp`. -/
def DiffPCR (pcr1 pcr2 : ℕ) : ℕ :=
  if MAX_PCR < pcr1 ∨ MAX_PCR < pcr2 then INVALID_PCR
  else if pcr1 ≤ pcr2 then pcr2 - pcr1 else PCR_SCALE + pcr2 - pcr1

/-- `ts::AbsDiffPCR` from `tsTS.cpp`, parameterized by the wrap-detection
predicate. Modelled from the spec: `WrapUpPCR` is declared in the header
(not in the available sources) and the spec leaves its exact rule open,
giving only its consistency contract, so it is taken as a parameter. -/
def AbsDiffPCR (wrapUp : ℕ → ℕ → Bool) (pcr1 pcr2 : ℕ) : ℕ :=
  if MAX_PCR < pcr1 ∨ MAX_PCR < pcr2 then INVALID_PCR
  else if wrapUp pcr1 pcr2 then PCR_SCALE + pcr2 - pcr1
  else if wrapUp pcr2 pcr1 then PCR_SCALE + pcr1 - pcr2
  else if pcr1 ≤ pcr2 then pcr2 - pcr1
  else pcr1 - pcr2

/-- `ts::DiffPTS` from `tsTS.cpp`. -/
def DiffPTS (pts1 pts2 : ℕ) : ℕ :=
  if MAX_PTS_DTS < pts1 ∨ MAX_PTS_DTS < pts2 then INVALID_PTS
  else if pts1 ≤ pts2 then pts2 - pts1 else PTS_DTS_SCALE + pts2 - pts1

/-!  Timestamp formatting  -/

/-- Modelled from the spec: the `UString` hexadecimal rendering used by
`TimeStampToString` (`0x`-prefixed, uppercase, zero-padded to the requested
number of digits); the formatting machinery itself is external to the
available sources. -/
def hexFormat (digits value : ℕ) : String :=
  let s : List Char := (Nat.toDigits 16 value).map Char.toUpper
  "0x" ++ String.mk (List.replicate (digits - s.length) '0' ++ s)

/-- Groups a reversed digit list in threes, inserting a comma separator. -/
def group3 : List Char → List Char
  | a :: b :: c :: rest =>
    if rest.isEmpty then [a, b, c]
    else a :: b :: c :: ',' :: group3 rest
  | l => l

/-- Modelled from the spec: the `UString` digit-grouped decimal rendering
used by `TimeStampToString`; the formatting machinery itself is external
to the available sources. -/
def groupedDecimal (value : ℕ) : String :=
  String.mk (group3 (Nat.toDigits 10 value).reverse).reverse

/-- The millisecond fragment `value / (frequency / 1000)` with a literal
unit marker, as formatted by `TimeStampToString`. -/
def msFragment (value frequency : ℕ) : String :=
  groupedDecimal (value / (frequency / 1000)) ++ " ms"

/-- The local helper `TimeStampToString` from `tsTS.cpp`: accumulates up to
three fragments with a running count, opening a parenthesis before the
second fragment, separating later fragments with a comma and closing the
parenthesis at the end. -/
def TimeStampToString (value : ℕ) (hexa decimal ms : Bool) (frequency digits : ℕ) : String :=
  let str0 : String := ""
  let count0 : ℕ := 0
  let str1 := if hexa then str0 ++ hexFormat digits value else str0
  let count1 := if hexa then count0 + 1 else count0
  let str2 :=
    if decimal ∧ (value ≠ 0 ∨ count1 = 0) then
      (if count1 = 1 then str1 ++ " (" else str1) ++ groupedDecimal value
    else str1
  let count2 := if decimal ∧ (value ≠ 0 ∨ count1 = 0) then count1 + 1 else count1
  let str3 :=
    if ms ∧ (value ≠ 0 ∨ count2 = 0) then
      (if count2 = 1 then str2 ++ " ("
       else if 1 < count2 then str2 ++ ", "
       else str2) ++ msFragment value frequency
    else str2
  let count3 := if ms ∧ (value ≠ 0 ∨ count2 = 0) then count2 + 1 else count2
  if 1 < count3 then str3 ++ ")" else str3

/-- `ts::PCRToString` from `tsTS.cpp`: 27 MHz clock, 11 hex digits. -/
def PCRToString (pcr : ℕ) (hexa decimal ms : Bool) : String :=
  TimeStampToString pcr hexa decimal ms SYSTEM_CLOCK_FREQ 11

/-- `ts::PTSToString` from `tsTS.cpp`: 90 kHz clock, 9 hex digits. -/
def PTSToString (pts : ℕ) (hexa decimal ms : Bool) : String :=
  TimeStampToString pts hexa decimal ms SYSTEM_CLOCK_SUBFREQ 9

/-- The fragment-emission rule as the spec words it: hex always when
requested; decimal and ms only when the value is nonzero or nothing has
been emitted yet. -/
def renderFragments (value : ℕ) (hexa decimal ms : Bool) (frequency digits : ℕ) : List String :=
  let f1 : List String := if hexa then [hexFormat digits value] else []
  let f2 := if decimal ∧ (value ≠ 0 ∨ f1 = []) then f1 ++ [groupedDecimal value] else f1
  if ms ∧ (value ≠ 0 ∨ f2 = []) then f2 ++ [msFragment value frequency] else f2

/-- Comma-and-space separation of the fragments after the first. -/
def sepByComma : List String → String
  | [] => ""
  | [a] => a
  | a :: rest => a ++ ", " ++ sepByComma rest

/-- The join rule as the spec words it: the first fragment is bare, the
rest are wrapped in a single parenthesis pair. -/
def joinFragments : List String → String
  | [] => ""
  | a :: rest => if rest = [] then a else a ++ " (" ++ sepByComma rest ++ ")"

example : groupedDecimal 0 = "0" := by decide
example : groupedDecimal 1234567 = "1,234,567" := by decide
example : hexFormat 5 255 = "0x000FF" := by decide
example : TimeStampToString 0 false true false 27000000 11 = "0" := by decide
example : TimeStampToString 0 false true true 27000000 11 = "0" := by decide
example : TimeStampToString 255 true true false 27000000 5 = "0x000FF (255)" := by decide
example : TimeStampToString 27000 true true true 27000000 5 = "0x06978 (27,000, 1 ms)" := by decide
example : TimeStampToString 0 true true true 27000000 3 = "0x000" := by decide
example : TimeStampToString 27000 false false true 27000000 5 = "1 ms" := by decide

example : DiffPCR (PCR_SCALE - 1) 0 = 1 := by decide
example : DiffPCR PCR_SCALE 0 = INVALID_PCR := by decide
example : AddPCR 5 (-7) = PCR_SCALE - 2 := by decide
example : AddPCR 5 7 = 12 := by decide
example : AddPCR 0 (-(PCR_SCALE : ℤ) - 1) = PCR_SCALE - 1 := by decide
example : NextPCR 100 1 40608000000 = 101 := by decide
example : NextPCR 100 0 7 = 100 := by decide
example : SelectBitrate 300000 3 500000 3 = 400000 := by decide
example : DiffPTS (PTS_DTS_SCALE - 1) 0 = 1 := by decide

theorem PCR_SCALE_eq : PCR_SCALE = 2576980377600 := by norm_num [PCR_SCALE]

theorem MAX_PCR_eq : MAX_PCR = 2576980377599 := by
  norm_num [MAX_PCR, PCR_SCALE_eq]

theorem PTS_DTS_SCALE_eq : PTS_DTS_SCALE = 8589934592 := by
  norm_num [PTS_DTS_SCALE]

theorem MAX_PTS_DTS_eq : MAX_PTS_DTS = 8589934591 := by
  norm_num [MAX_PTS_DTS, PTS_DTS_SCALE_eq]

theorem INVALID_PCR_eq : INVALID_PCR = 18446744073709551615 := by
  norm_num [INVALID_PCR]

theorem INVALID_PTS_eq : INVALID_PTS = 18446744073709551615 := by
  norm_num [INVALID_PTS]

theorem UINT64_MOD_eq : UINT64_MOD = 18446744073709551616 := by
  norm_num [UINT64_MOD]

/-!  Helper lemmas  -/

/-- Truncated remainder expressed through the mathematical (euclidean)
remainder, for a positive modulus. -/
theorem tmod_eq_ite_emod (s P : ℤ) (hP : 0 < P) :
    Int.tmod s P = if 0 ≤ s then s % P else -((-s) % P) := by
  rcases s with n | n
  · rw [if_pos (by exact Int.ofNat_nonneg n)]
    exact Int.tmod_eq_emod (Int.ofNat_nonneg n) hP.le
  · rw [if_neg (by exact not_le.mpr (Int.negSucc_lt_zero n))]
    rcases P with p | p
    · rw [show Int.tmod (Int.negSucc n) (Int.ofNat p) = -Int.ofNat (n.succ % p) from rfl]
      rw [show -Int.negSucc n = Int.ofNat (n + 1) from rfl]
      simp [Int.ofNat_emod, Nat.succ_eq_add_one]
    · exact absurd hP (by exact not_lt.mpr (Int.negSucc_lt_zero p).le)

/-- C1 (counterexample): the claim fails at two inputs inside its
quantified range. At `pcr = 0`, `offset = -(PCR_SCALE + 1)` (a negative
mathematical sum), `AddPCR` returns `PCR_SCALE - 1`, not `PCR_SCALE` plus
the (below `-PCR_SCALE`) sum, so the claim's elaboration that a negative
sum always yields `PCR_SCALE + sum` is false. And at `pcr = 1`,
`offset = 2^63 - 1` the `int64_t` addition in the source overflows and
wraps, so the result is not the mathematical residue
`(pcr + offset) mod PCR_SCALE` either. -/
theorem addPCR_claim_cex :
    ((0 : ℕ) ≤ MAX_PCR ∧
     -(2 : ℤ) ^ 63 ≤ -(PCR_SCALE : ℤ) - 1 ∧
     ((0 : ℕ) : ℤ) + (-(PCR_SCALE : ℤ) - 1) < 0 ∧
     (AddPCR 0 (-(PCR_SCALE : ℤ) - 1) : ℤ) ≠
       (PCR_SCALE : ℤ) + (((0 : ℕ) : ℤ) + (-(PCR_SCALE : ℤ) - 1))) ∧
    ((1 : ℕ) ≤ MAX_PCR ∧
     -(2 : ℤ) ^ 63 ≤ (2 : ℤ) ^ 63 - 1 ∧
     (2 : ℤ) ^ 63 - 1 < 2 ^ 63 ∧
     AddPCR 1 (2 ^ 63 - 1) = 1511828488192 ∧
     (AddPCR 1 (2 ^ 63 - 1) : ℤ) ≠
       (((1 : ℕ) : ℤ) + ((2 : ℤ) ^ 63 - 1)) % (PCR_SCALE : ℤ)) := by
  refine ⟨⟨by decide, by decide, by decide, by decide⟩,
    by decide, by decide, by decide, by decide, by decide⟩

/-- C1 (amended): for every `pcr ≤ MAX_PCR` and signed 64-bit `offset`,
`AddPCR pcr offset` is the mathematical residue `(pcr + offset) mod
PCR_SCALE`, always in `[0, PCR_SCALE)`; when the sum is negative but at
least `-PCR_SCALE` the result is `PCR_SCALE` plus that sum; and
`AddPCR pcr 0 = pcr`. -/
theorem addPCR_spec (pcr : ℕ) (offset : ℤ) (hpcr : pcr ≤ MAX_PCR)
    (h1 : -(2 : ℤ) ^ 63 ≤ offset) (_h2 : offset < 2 ^ 63)
    (hsum : (pcr : ℤ) + offset < 2 ^ 63) :
    (AddPCR pcr offset : ℤ) = ((pcr : ℤ) + offset) % (PCR_SCALE : ℤ) ∧
    AddPCR pcr offset < PCR_SCALE ∧
    (-(PCR_SCALE : ℤ) ≤ (pcr : ℤ) + offset → (pcr : ℤ) + offset < 0 →
      (AddPCR pcr offset : ℤ) = (PCR_SCALE : ℤ) + ((pcr : ℤ) + offset)) ∧
    AddPCR pcr 0 = pcr := by
  have hP : (0 : ℤ) < (PCR_SCALE : ℤ) := by simp [PCR_SCALE_eq]
  have hpcr2 : pcr ≤ 2576980377599 := by rwa [MAX_PCR_eq] at hpcr
  have hp0 : (0 : ℤ) ≤ (pcr : ℤ) := Int.natCast_nonneg pcr
  have key : ∀ off : ℤ, -(2 : ℤ) ^ 63 ≤ (pcr : ℤ) + off → (pcr : ℤ) + off < 2 ^ 63 →
      (AddPCR pcr off : ℤ) = ((pcr : ℤ) + off) % (PCR_SCALE : ℤ) := by
    intro off hlo hhi
    simp only [AddPCR, if_neg (not_lt.mpr hpcr)]
    rw [show wrapInt64 ((pcr : ℤ) + off) = (pcr : ℤ) + off from by
      simp only [wrapInt64, INT64_MIN, INT64_MOD]
      norm_num at hlo hhi ⊢
      rw [Int.emod_eq_of_lt (by omega) (by omega)]
      omega]
    rw [tmod_eq_ite_emod _ _ hP]
    by_cases hs : 0 ≤ (pcr : ℤ) + off
    · rw [if_pos hs]
      have e1 := Int.emod_nonneg ((pcr : ℤ) + off) hP.ne'
      have e2 := Int.emod_lt_of_pos ((pcr : ℤ) + off) hP
      simp only [PCR_SCALE_eq] at *
      push_cast at *
      split <;> omega
    · rw [if_neg hs]
      have e1 := Int.emod_nonneg (-((pcr : ℤ) + off)) hP.ne'
      have e2 := Int.emod_lt_of_pos (-((pcr : ℤ) + off)) hP
      simp only [PCR_SCALE_eq] at *
      push_cast at *
      split <;> omega
  have hb := key offset (by norm_num at h1 ⊢; omega) hsum
  have e1 := Int.emod_nonneg ((pcr : ℤ) + offset) hP.ne'
  have e2 := Int.emod_lt_of_pos ((pcr : ℤ) + offset) hP
  refine ⟨hb, ?_, fun hlo hneg => ?_, ?_⟩
  · simp only [PCR_SCALE_eq] at *
    push_cast at *
    omega
  · rw [hb]
    simp only [PCR_SCALE_eq] at *
    push_cast at *
    omega
  · have h0 := key 0 (by norm_num; omega) (by norm_num; omega)
    simp only [PCR_SCALE_eq] at *
    push_cast at *
    omega

theorem addPCR_spec_witness :
    AddPCR 5 (-7) < PCR_SCALE ∧ AddPCR 5 0 = 5 :=
  ⟨(addPCR_spec 5 (-7) (by decide) (by decide) (by decide) (by decide)).2.1,
   (addPCR_spec 5 0 (by decide) (by decide) (by decide) (by decide)).2.2.2⟩

/-- C2 (counterexample): at `last_pcr = 0` (valid), `distance = 2^32`,
`bitrate = 1` (nonzero), the 64-bit local sum wraps, so `NextPCR` does not
return the claimed value, the elapsed ticks with `PCR_SCALE` subtracted
exactly once. -/
theorem nextPCR_claim_cex :
    (0 : ℕ) ≠ INVALID_PCR ∧ (1 : ℕ) ≠ 0 ∧
    NextPCR 0 4294967296 1 ≠
      (if PCR_SCALE ≤ 0 + 4294967296 * PKT_SIZE_BITS * SYSTEM_CLOCK_FREQ / 1
       then 0 + 4294967296 * PKT_SIZE_BITS * SYSTEM_CLOCK_FREQ / 1 - PCR_SCALE
       else 0 + 4294967296 * PKT_SIZE_BITS * SYSTEM_CLOCK_FREQ / 1) := by
  refine ⟨by decide, by decide, by decide⟩

/-- C2 (amended): `NextPCR` returns `INVALID_PCR` exactly when
`last_pcr = INVALID_PCR` or `bitrate = 0`; otherwise, provided the 64-bit
sum of `last_pcr` and the elapsed ticks
`distance * PKT_SIZE_BITS * SYSTEM_CLOCK_FREQ / bitrate` does not overflow,
it returns that sum with `PCR_SCALE` subtracted exactly once when the sum
reaches or exceeds `PCR_SCALE`; and `NextPCR last 0 b = last` for every
`last < PCR_SCALE` and nonzero `b`. -/
theorem nextPCR_spec :
    (∀ last_pcr distance bitrate : ℕ,
      (NextPCR last_pcr distance bitrate = INVALID_PCR ↔
        last_pcr = INVALID_PCR ∨ bitrate = 0)) ∧
    (∀ last_pcr distance bitrate : ℕ, last_pcr ≠ INVALID_PCR → bitrate ≠ 0 →
      last_pcr + distance * PKT_SIZE_BITS * SYSTEM_CLOCK_FREQ / bitrate < UINT64_MOD →
      NextPCR last_pcr distance bitrate =
        if PCR_SCALE ≤ last_pcr + distance * PKT_SIZE_BITS * SYSTEM_CLOCK_FREQ / bitrate
        then last_pcr + distance * PKT_SIZE_BITS * SYSTEM_CLOCK_FREQ / bitrate - PCR_SCALE
        else last_pcr + distance * PKT_SIZE_BITS * SYSTEM_CLOCK_FREQ / bitrate) ∧
    (∀ last_pcr bitrate : ℕ, last_pcr < PCR_SCALE → bitrate ≠ 0 →
      NextPCR last_pcr 0 bitrate = last_pcr) := by
  refine ⟨?_, ?_, ?_⟩
  · intro l d b
    by_cases hc : l = INVALID_PCR ∨ b = 0
    · simp only [NextPCR, if_pos hc]
      exact ⟨fun _ => hc, fun _ => trivial⟩
    · simp only [NextPCR, if_neg hc]
      refine ⟨fun h => ?_, fun h => absurd h hc⟩
      exfalso
      revert h
      generalize d * PKT_SIZE_BITS * SYSTEM_CLOCK_FREQ / b = t
      simp only [PCR_SCALE_eq, UINT64_MOD_eq, INVALID_PCR_eq]
      split <;> omega
  · intro l d b h1 h2 h3
    simp only [NextPCR, if_neg (show ¬(l = INVALID_PCR ∨ b = 0) by tauto)]
    rw [Nat.mod_eq_of_lt h3]
  · intro l b hl hb
    have hl2 : l < 2576980377600 := by rwa [PCR_SCALE_eq] at hl
    have hinv : l ≠ INVALID_PCR := by rw [INVALID_PCR_eq]; omega
    simp only [NextPCR, if_neg (show ¬(l = INVALID_PCR ∨ b = 0) by tauto),
      Nat.zero_mul, Nat.zero_div, Nat.add_zero]
    rw [Nat.mod_eq_of_lt (by rw [UINT64_MOD_eq]; omega)]
    rw [if_neg (not_le.mpr hl)]

theorem nextPCR_spec_witness :
    NextPCR 100 1 40608000000 =
      (if PCR_SCALE ≤ 100 + 1 * PKT_SIZE_BITS * SYSTEM_CLOCK_FREQ / 40608000000
       then 100 + 1 * PKT_SIZE_BITS * SYSTEM_CLOCK_FREQ / 40608000000 - PCR_SCALE
       else 100 + 1 * PKT_SIZE_BITS * SYSTEM_CLOCK_FREQ / 40608000000) ∧
    NextPCR 77 0 40608000000 = 77 :=
  ⟨nextPCR_spec.2.1 100 1 40608000000 (by decide) (by decide) (by decide),
   nextPCR_spec.2.2 77 40608000000 (by decide) (by decide)⟩

/-- C3: `DiffPCR` returns `INVALID_PCR` exactly when an input exceeds
`MAX_PCR`; on valid inputs it is `pcr2 - pcr1` when `pcr2 ≥ pcr1` and
`PCR_SCALE - pcr1 + pcr2` otherwise, always below `PCR_SCALE`, with
`DiffPCR p p = 0` and `DiffPCR (PCR_SCALE - 1) 0 = 1`. -/
theorem diffPCR_spec :
    (∀ pcr1 pcr2 : ℕ,
      (DiffPCR pcr1 pcr2 = INVALID_PCR ↔ MAX_PCR < pcr1 ∨ MAX_PCR < pcr2)) ∧
    (∀ pcr1 pcr2 : ℕ, pcr1 ≤ MAX_PCR → pcr2 ≤ MAX_PCR →
      DiffPCR pcr1 pcr2 < PCR_SCALE ∧
      (pcr1 ≤ pcr2 → DiffPCR pcr1 pcr2 = pcr2 - pcr1) ∧
      (pcr2 < pcr1 → DiffPCR pcr1 pcr2 = PCR_SCALE - pcr1 + pcr2)) ∧
    (∀ pcr : ℕ, pcr ≤ MAX_PCR → DiffPCR pcr pcr = 0) ∧
    DiffPCR (PCR_SCALE - 1) 0 = 1 := by
  refine ⟨?_, ?_, ?_, by decide⟩
  · intro p1 p2
    simp only [DiffPCR, PCR_SCALE_eq, MAX_PCR_eq, INVALID_PCR_eq]
    split_ifs <;> omega
  · intro p1 p2 h1 h2
    simp only [DiffPCR, PCR_SCALE_eq, MAX_PCR_eq, INVALID_PCR_eq] at *
    split_ifs <;> refine ⟨by omega, fun h => by omega, fun h => by omega⟩
  · intro p h
    simp only [DiffPCR, MAX_PCR_eq] at *
    split_ifs <;> omega

theorem diffPCR_spec_witness :
    DiffPCR 3 10 < PCR_SCALE ∧ DiffPCR 10 3 = PCR_SCALE - 10 + 3 ∧ DiffPCR 42 42 = 0 :=
  ⟨(diffPCR_spec.2.1 3 10 (by decide) (by decide)).1,
   (diffPCR_spec.2.1 10 3 (by decide) (by decide)).2.2 (by decide),
   diffPCR_spec.2.2.1 42 (by decide)⟩

/-- C4: `AbsDiffPCR` is symmetric on valid inputs for every wrap-detection
predicate satisfying the consistency contract (never both orientations at
once). -/
theorem absDiffPCR_symm (wrapUp : ℕ → ℕ → Bool)
    (hW : ∀ a b, ¬(wrapUp a b = true ∧ wrapUp b a = true))
    (pcr1 pcr2 : ℕ) (h1 : pcr1 ≤ MAX_PCR) (h2 : pcr2 ≤ MAX_PCR) :
    AbsDiffPCR wrapUp pcr1 pcr2 = AbsDiffPCR wrapUp pcr2 pcr1 := by
  have hg1 : ¬(MAX_PCR < pcr1 ∨ MAX_PCR < pcr2) := by omega
  have hg2 : ¬(MAX_PCR < pcr2 ∨ MAX_PCR < pcr1) := by omega
  simp only [AbsDiffPCR, if_neg hg1, if_neg hg2]
  by_cases w12 : wrapUp pcr1 pcr2 <;> by_cases w21 : wrapUp pcr2 pcr1
  · exact absurd ⟨w12, w21⟩ (hW pcr1 pcr2)
  · simp [w12, w21]
  · simp [w12, w21]
  · simp only [w12, w21, if_neg, Bool.false_eq_true, if_false]
    split_ifs <;> omega

theorem absDiffPCR_symm_witness :
    AbsDiffPCR (fun _ _ => false) 3 5 = AbsDiffPCR (fun _ _ => false) 5 3 :=
  absDiffPCR_symm (fun _ _ => false) (fun a b h => Bool.noConfusion h.1)
    3 5 (by decide) (by decide)

/-- C5: `SelectBitrate` returns the other bitrate when one is the zero
sentinel (the second one when both are zero), the floor mean when both are
nonzero with equal confidence, and the strictly more trusted bitrate
otherwise. -/
theorem selectBitrate_spec :
    (∀ bitrate2 brc1 brc2 : ℕ, SelectBitrate 0 brc1 bitrate2 brc2 = bitrate2) ∧
    (∀ bitrate1 brc1 brc2 : ℕ, bitrate1 ≠ 0 →
      SelectBitrate bitrate1 brc1 0 brc2 = bitrate1) ∧
    (∀ bitrate1 bitrate2 brc : ℕ, bitrate1 ≠ 0 → bitrate2 ≠ 0 →
      SelectBitrate bitrate1 brc bitrate2 brc = (bitrate1 + bitrate2) / 2) ∧
    (∀ bitrate1 brc1 bitrate2 brc2 : ℕ, bitrate1 ≠ 0 → bitrate2 ≠ 0 → brc2 < brc1 →
      SelectBitrate bitrate1 brc1 bitrate2 brc2 = bitrate1) ∧
    (∀ bitrate1 brc1 bitrate2 brc2 : ℕ, bitrate1 ≠ 0 → bitrate2 ≠ 0 → brc1 < brc2 →
      SelectBitrate bitrate1 brc1 bitrate2 brc2 = bitrate2) := by
  refine ⟨fun b2 c1 c2 => by simp [SelectBitrate], ?_, ?_, ?_, ?_⟩ <;>
    intros <;> simp only [SelectBitrate] <;> split_ifs <;> omega

theorem selectBitrate_spec_witness :
    SelectBitrate 400000 5 0 2 = 400000 ∧
    SelectBitrate 300000 3 500000 3 = (300000 + 500000) / 2 ∧
    SelectBitrate 300000 1 500000 2 = 500000 :=
  ⟨selectBitrate_spec.2.1 400000 5 2 (by decide),
   selectBitrate_spec.2.2.1 300000 500000 3 (by decide) (by decide),
   selectBitrate_spec.2.2.2.2 300000 1 500000 2 (by decide) (by decide) (by decide)⟩

/-- C10: `SelectBitrate` is commutative under swapping its argument pairs. -/
theorem selectBitrate_comm (bitrate1 brc1 bitrate2 brc2 : ℕ) :
    SelectBitrate bitrate1 brc1 bitrate2 brc2 =
      SelectBitrate bitrate2 brc2 bitrate1 brc1 := by
  simp only [SelectBitrate]
  split_ifs <;> omega

/-- C8: `DiffPTS` returns `INVALID_PTS` exactly when an input exceeds
`MAX_PTS_DTS`; on valid inputs it is `pts2 - pts1` when `pts2 ≥ pts1` and
`PTS_DTS_SCALE - pts1 + pts2` otherwise, always below `PTS_DTS_SCALE`. -/
theorem diffPTS_spec :
    (∀ pts1 pts2 : ℕ,
      (DiffPTS pts1 pts2 = INVALID_PTS ↔ MAX_PTS_DTS < pts1 ∨ MAX_PTS_DTS < pts2)) ∧
    (∀ pts1 pts2 : ℕ, pts1 ≤ MAX_PTS_DTS → pts2 ≤ MAX_PTS_DTS →
      DiffPTS pts1 pts2 < PTS_DTS_SCALE ∧
      (pts1 ≤ pts2 → DiffPTS pts1 pts2 = pts2 - pts1) ∧
      (pts2 < pts1 → DiffPTS pts1 pts2 = PTS_DTS_SCALE - pts1 + pts2)) := by
  refine ⟨?_, ?_⟩
  · intro p1 p2
    simp only [DiffPTS, PTS_DTS_SCALE_eq, MAX_PTS_DTS_eq, INVALID_PTS_eq]
    split_ifs <;> omega
  · intro p1 p2 h1 h2
    simp only [DiffPTS, PTS_DTS_SCALE_eq, MAX_PTS_DTS_eq, INVALID_PTS_eq] at *
    split_ifs <;> refine ⟨by omega, fun h => by omega, fun h => by omega⟩

theorem diffPTS_spec_witness :
    DiffPTS 3 10 < PTS_DTS_SCALE ∧ DiffPTS 10 3 = PTS_DTS_SCALE - 10 + 3 :=
  ⟨(diffPTS_spec.2 3 10 (by decide) (by decide)).1,
   (diffPTS_spec.2 10 3 (by decide) (by decide)).2.2 (by decide)⟩

/-- C7 (counterexample): `PCR_SCALE` is outside the valid clock domain and
is not the sentinel, yet `NextPCR PCR_SCALE 0 1` returns a non-sentinel
value, so `NextPCR` does not report every out-of-domain clock operand via
`INVALID_PCR`. -/
theorem sentinel_claim_cex :
    MAX_PCR < PCR_SCALE ∧ PCR_SCALE ≠ INVALID_PCR ∧
    NextPCR PCR_SCALE 0 1 ≠ INVALID_PCR := by
  refine ⟨by decide, by decide, by decide⟩

/-- C7 (amended): `AddPCR`, `DiffPCR`, `AbsDiffPCR` and `DiffPTS` report
any out-of-domain clock operand via their sentinel; `NextPCR` returns the
sentinel for `last_pcr = INVALID_PCR` or `bitrate = 0` (but does not detect
other out-of-domain `last_pcr` values). -/
theorem sentinel_spec :
    (∀ (pcr : ℕ) (offset : ℤ), MAX_PCR < pcr → AddPCR pcr offset = INVALID_PCR) ∧
    (∀ pcr1 pcr2 : ℕ, MAX_PCR < pcr1 ∨ MAX_PCR < pcr2 →
      DiffPCR pcr1 pcr2 = INVALID_PCR) ∧
    (∀ (wrapUp : ℕ → ℕ → Bool) (pcr1 pcr2 : ℕ), MAX_PCR < pcr1 ∨ MAX_PCR < pcr2 →
      AbsDiffPCR wrapUp pcr1 pcr2 = INVALID_PCR) ∧
    (∀ pts1 pts2 : ℕ, MAX_PTS_DTS < pts1 ∨ MAX_PTS_DTS < pts2 →
      DiffPTS pts1 pts2 = INVALID_PTS) ∧
    (∀ distance bitrate : ℕ, NextPCR INVALID_PCR distance bitrate = INVALID_PCR) ∧
    (∀ last_pcr distance : ℕ, NextPCR last_pcr distance 0 = INVALID_PCR) := by
  refine ⟨?_, ?_, ?_, ?_, ?_, ?_⟩
  · intro p o h
    simp only [AddPCR, if_pos h]
  · intro p1 p2 h
    simp only [DiffPCR, if_pos h]
  · intro w p1 p2 h
    simp only [AbsDiffPCR, if_pos h]
  · intro p1 p2 h
    simp only [DiffPTS, if_pos h]
  · intro d b
    simp [NextPCR]
  · intro l d
    simp [NextPCR]

theorem sentinel_spec_witness :
    AddPCR PCR_SCALE 0 = INVALID_PCR ∧
    DiffPCR PCR_SCALE 0 = INVALID_PCR ∧
    AbsDiffPCR (fun _ _ => true) PCR_SCALE 0 = INVALID_PCR ∧
    DiffPTS PTS_DTS_SCALE 0 = INVALID_PTS :=
  ⟨sentinel_spec.1 PCR_SCALE 0 (by decide),
   sentinel_spec.2.1 PCR_SCALE 0 (Or.inl (by decide)),
   sentinel_spec.2.2.1 (fun _ _ => true) PCR_SCALE 0 (Or.inl (by decide)),
   sentinel_spec.2.2.2.1 PTS_DTS_SCALE 0 (Or.inl (by decide))⟩

/-- C6: predicting a PCR with `NextPCR` and differencing back with
`DiffPCR` recovers exactly the elapsed ticks, whenever the elapsed ticks
are below `PCR_SCALE`. -/
theorem diffPCR_nextPCR_roundtrip (last_pcr distance bitrate : ℕ)
    (hlast : last_pcr < PCR_SCALE) (hb : bitrate ≠ 0)
    (hticks : distance * PKT_SIZE_BITS * SYSTEM_CLOCK_FREQ / bitrate < PCR_SCALE) :
    DiffPCR last_pcr (NextPCR last_pcr distance bitrate) =
      distance * PKT_SIZE_BITS * SYSTEM_CLOCK_FREQ / bitrate := by
  have hlast2 : last_pcr < 2576980377600 := by rwa [PCR_SCALE_eq] at hlast
  have hinv : last_pcr ≠ INVALID_PCR := by rw [INVALID_PCR_eq]; omega
  simp only [NextPCR, if_neg (show ¬(last_pcr = INVALID_PCR ∨ bitrate = 0) by tauto)]
  generalize ht : distance * PKT_SIZE_BITS * SYSTEM_CLOCK_FREQ / bitrate = t at hticks ⊢
  rw [Nat.mod_eq_of_lt (by rw [UINT64_MOD_eq]; rw [PCR_SCALE_eq] at hticks; omega)]
  simp only [DiffPCR, PCR_SCALE_eq, MAX_PCR_eq, INVALID_PCR_eq] at *
  split_ifs <;> omega

theorem diffPCR_nextPCR_roundtrip_witness :
    DiffPCR 100 (NextPCR 100 1 40608000000) =
      1 * PKT_SIZE_BITS * SYSTEM_CLOCK_FREQ / 40608000000 :=
  diffPCR_nextPCR_roundtrip 100 1 40608000000 (by decide) (by decide) (by decide)

theorem str_empty_append (s : String) : "" ++ s = s := rfl

theorem str_append_assoc (a b c : String) : a ++ b ++ c = a ++ (b ++ c) := by
  apply String.ext
  simp [String.data_append, List.append_assoc]

/-- C9: the rendering layout. `TimeStampToString` equals the spec-side
fragment list under the join rule (first fragment bare, the rest in one
parenthesis pair separated by a comma); a zero value emits at most one
fragment, hence never a parenthesized part; a zero value with only decimal
requested is the literal `"0"`; a nonzero value with hex and decimal
requested is `0x<padded-hex> (<grouped-decimal>)`; and the PCR and PTS
renderers use the 27 MHz clock with 11 hex digits and the 90 kHz clock
with 9 hex digits respectively. -/
theorem timeStampToString_spec :
    (∀ (value : ℕ) (hexa decimal ms : Bool) (frequency digits : ℕ),
      TimeStampToString value hexa decimal ms frequency digits =
        joinFragments (renderFragments value hexa decimal ms frequency digits)) ∧
    (∀ (hexa decimal ms : Bool) (frequency digits : ℕ),
      (renderFragments 0 hexa decimal ms frequency digits).length ≤ 1) ∧
    (∀ frequency digits : ℕ, TimeStampToString 0 false true false frequency digits = "0") ∧
    (∀ value frequency digits : ℕ, value ≠ 0 →
      TimeStampToString value true true false frequency digits =
        hexFormat digits value ++ " (" ++ groupedDecimal value ++ ")") ∧
    (∀ (value : ℕ) (hexa decimal ms : Bool),
      PCRToString value hexa decimal ms =
        TimeStampToString value hexa decimal ms SYSTEM_CLOCK_FREQ 11 ∧
      PTSToString value hexa decimal ms =
        TimeStampToString value hexa decimal ms SYSTEM_CLOCK_SUBFREQ 9) := by
  refine ⟨?_, ?_, ?_, ?_, fun v hexa dec ms => ⟨rfl, rfl⟩⟩
  · intro v hexa dec ms f dg
    cases hexa <;> cases dec <;> cases ms <;> by_cases hv : v = 0 <;>
      simp [TimeStampToString, renderFragments, joinFragments, sepByComma, hv,
        str_empty_append, str_append_assoc]
  · intro hexa dec ms f dg
    cases hexa <;> cases dec <;> cases ms <;> simp [renderFragments]
  · intro f dg
    rfl
  · intro v f dg hv
    simp [TimeStampToString, hv, str_empty_append, str_append_assoc]

theorem timeStampToString_spec_witness :
    TimeStampToString 255 true true false 27000000 11 =
      hexFormat 11 255 ++ " (" ++ groupedDecimal 255 ++ ")" :=
  timeStampToString_spec.2.2.2.1 255 27000000 11 (by decide)
